import Mathlib

/-!
Verification of the selection-to-insight orchestration pipeline of the
frontend application (`frontend_app/src`).  The development shallowly embeds
the data model and operations of

  * `src/lib/api-client.ts` — the backend gateway and recommendation
    normalizer (`extractAndSearch`, `getInsights`, `parsePageStart`,
    `parseFirstBBox`);
  * `src/app/(main)/page.tsx` — the page-level state, the debounced
    selection pipeline (`handleTextSelect`, `processSelectionWithScreenshot`),
    navigation (`handleDocumentSelect`, `handleOpenSinglePdf`,
    `handleBackToLibrary`, `handleBackToUpload`) and the highlight
    synchronizer (`handleJumpToPage`).

JavaScript numbers are modelled by `ℚ` (every numeric literal occurring in
the embedded code paths is exactly representable, and the comparisons the
code performs agree with the rational ones on those paths); `NaN` is
modelled by `Option.none` where it can arise.  JavaScript strings are
modelled by `String` (the claims only exercise ASCII data, where JS UTF-16
code-unit indexing and Lean character indexing agree).
-/

namespace AIHPipeline

/-- JavaScript runtime values, restricted to the shapes flowing through the
normalizer and the insights error path: numbers, strings, arrays, objects
(as association lists) and `null`/`undefined` (collapsed to `.null`; the
embedded code only distinguishes them through truthiness and `Array.isArray`,
where they behave identically). -/
inductive JSValue where
  | num (q : ℚ)
  | str (s : String)
  | arr (xs : List JSValue)
  | obj (fields : List (String × JSValue))
  | null
deriving Repr

/-- JavaScript truthiness for the modelled values: `0`, `""`, `null` and
`undefined` are falsy; arrays and objects are truthy. -/
def jsTruthy : JSValue → Bool
  | .num q => if q = 0 then false else true
  | .str s => if s = "" then false else true
  | .arr _ => true
  | .obj _ => true
  | .null => false

/-- `a || b` on JavaScript values: the left operand if truthy, else the
right one. -/
def jsOr (a b : JSValue) : JSValue :=
  if jsTruthy a then a else b

/-- The single-quote character (code point 39). -/
def squoteChar : Char := Char.ofNat 39

/-- The double-quote character (code point 34). -/
def dquoteChar : Char := Char.ofNat 34

/-- The global quote replacement `parsePageStart` and `parseFirstBBox`
apply before JSON-parsing: rewrite every single quote to a double quote
(api-client.ts 108, 119). -/
def replaceQuotes (s : String) : String :=
  String.mk (s.toList.map (fun c => if c = squoteChar then dquoteChar else c))

/-- Greedily consume decimal digits, returning the accumulated value, the
number of digits consumed and the rest of the input. -/
def takeDigits (acc : ℕ) (cnt : ℕ) : List Char → ℕ × ℕ × List Char
  | c :: cs =>
      if c.isDigit then takeDigits (acc * 10 + (c.toNat - 48)) (cnt + 1) cs
      else (acc, cnt, c :: cs)
  | [] => (acc, cnt, [])

/-- Drop leading whitespace (the insignificant whitespace of the JSON grammar). -/
def skipSpaces : List Char → List Char
  | c :: cs => if c = ' ' ∨ c = '\t' ∨ c = '\n' ∨ c = '\r' then skipSpaces cs else c :: cs
  | cs => cs

/-- Parse a JSON number (optional minus sign, integer part, optional
fractional part) as an exact rational. -/
def parseJsonNumber (cs : List Char) : Option (ℚ × List Char) :=
  let (neg, cs1) : Bool × List Char :=
    match cs with
    | '-' :: r => (true, r)
    | _ => (false, cs)
  match cs1 with
  | c :: _ =>
      if c.isDigit then
        let (n, _, cs2) := takeDigits 0 0 cs1
        let (q, cs3) : ℚ × List Char :=
          match cs2 with
          | '.' :: d :: r =>
              if d.isDigit then
                let (f, k, r2) := takeDigits 0 0 (d :: r)
                ((n : ℚ) + (f : ℚ) / (10 : ℚ) ^ k, r2)
              else ((n : ℚ), cs2)
          | _ => ((n : ℚ), cs2)
        some (if neg then -q else q, cs3)
      else none
  | [] => none

/-- Consume the characters of a JSON string body up to the closing double
quote (escapes are not needed by the inputs the code parses). -/
def takeStringBody : List Char → Option (String × List Char)
  | c :: cs =>
      if c = dquoteChar then some ("", cs)
      else
        match takeStringBody cs with
        | some (s, rest) => some (String.mk (c :: s.toList), rest)
        | none => none
  | [] => none

mutual

/-- Recursive-descent parser for the JSON fragment `JSON.parse` is applied
to in `parsePageStart` / `parseFirstBBox`: numbers, double-quoted strings,
`null`, and (nested) arrays thereof.  `fuel` bounds the recursion depth;
`jsonParse` supplies enough for any input. -/
def parseJsonVal : ℕ → List Char → Option (JSValue × List Char)
  | 0, _ => none
  | fuel + 1, cs =>
      match skipSpaces cs with
      | '[' :: rest =>
          match skipSpaces rest with
          | ']' :: rest2 => some (.arr [], rest2)
          | rest2 => parseJsonElems fuel rest2
      | 'n' :: 'u' :: 'l' :: 'l' :: rest => some (.null, rest)
      | c :: rest =>
          if c = dquoteChar then
            match takeStringBody rest with
            | some (s, rest2) => some (.str s, rest2)
            | none => none
          else
            match parseJsonNumber (c :: rest) with
            | some (q, rest2) => some (.num q, rest2)
            | none => none
      | [] => none

/-- Parse the comma-separated elements of a JSON array, after the opening
bracket, up to and including the closing bracket. -/
def parseJsonElems : ℕ → List Char → Option (JSValue × List Char)
  | 0, _ => none
  | fuel + 1, cs =>
      match parseJsonVal fuel cs with
      | some (v, rest) =>
          match skipSpaces rest with
          | ',' :: rest2 =>
              match parseJsonElems fuel rest2 with
              | some (.arr vs, rest3) => some (.arr (v :: vs), rest3)
              | _ => none
          | ']' :: rest2 => some (.arr [v], rest2)
          | _ => none
      | none => none

end

/-- `JSON.parse` on the fragment the normalizer feeds it (page-range and
bounding-box encodings): `none` models a thrown `SyntaxError`. -/
def jsonParse (s : String) : Option JSValue :=
  match parseJsonVal (s.length + 1) s.toList with
  | some (v, rest) => if skipSpaces rest = [] then some v else none
  | none => none

/-- JS `trim()`: strip leading and trailing whitespace.  (Defined over the
character list so that it evaluates by kernel reduction.) -/
def jsTrim (s : String) : String :=
  String.mk (((s.toList.dropWhile Char.isWhitespace).reverse.dropWhile
    Char.isWhitespace).reverse)

/-- `Number(x)` on the modelled values; `none` models `NaN`.  Strings are
trimmed and read as decimal literals (`""` gives `0`); `null` gives `0`
(`undefined`, also collapsed to `.null`, cannot reach this function from the
embedded call sites because `Number` is only applied to elements of parsed
JSON arrays); arrays coerce through their single element as in JS. -/
def toNumber : JSValue → Option ℚ
  | .num q => some q
  | .str s =>
      let t := jsTrim s
      if t = "" then some 0
      else
        match parseJsonNumber t.toList with
        | some (q, rest) => if rest = [] then some q else none
        | none => none
  | .null => some 0
  | .arr [] => some 0
  | .arr [v] => toNumber v
  | .arr _ => none
  | .obj _ => none

/-- `Number(x) || 0`: the numeric coercion with `NaN` (and `0` itself)
replaced by `0`. -/
def numOr0 (v : JSValue) : ℚ :=
  (toNumber v).getD 0

mutual

/-- `String(x)` on the modelled values.  Only the string case is exercised
by the claims (the numeric rendering of `ℚ` is an approximation of JS
number formatting). -/
def jsToString : JSValue → String
  | .str s => s
  | .num q => toString q
  | .null => "null"
  | .arr xs => jsToStringList xs
  | .obj _ => "[object Object]"

/-- Array elements joined by commas, as in JS array-to-string coercion. -/
def jsToStringList : List JSValue → String
  | [] => ""
  | [x] => jsToString x
  | x :: y :: rest => jsToString x ++ "," ++ jsToStringList (y :: rest)

end

/-- Metadata records (`Record<string, unknown>`) as association lists. -/
abbrev Metadata := List (String × JSValue)

/-- Property access `meta?.key`: `none` models `undefined`. -/
def metaGet (meta : Metadata) (key : String) : Option JSValue :=
  (meta.find? (fun p => decide (p.1 = key))).map (fun p => p.2)

/-- `parsePageStart` from `extractAndSearch` (api-client.ts 105-114): a
string value is quote-normalized and JSON-parsed, and the first element of
a non-empty parsed array is numerically coerced; a non-string non-empty
array is handled directly; every other case (parse failure, empty array,
other shapes, missing value) yields `0`. -/
def parsePageStart (pageRange : Option JSValue) : ℚ :=
  match pageRange with
  | some (.str s) =>
      match jsonParse (replaceQuotes s) with
      | some (.arr (x :: _)) => numOr0 x
      | _ => 0
  | some (.arr (x :: _)) => numOr0 x
  | _ => 0

/-- `parseFirstBBox` from `extractAndSearch` (api-client.ts 116-129): the
value (JSON-parsed first when it is a string) must be a non-empty array
whose first element is an array of exactly four entries; those entries are
numerically coerced, and every failure yields `[0, 0, 0, 0]`. -/
def parseFirstBBox (bboxes : Option JSValue) : ℚ × ℚ × ℚ × ℚ :=
  let parsed : Option JSValue :=
    match bboxes with
    | some (.str s) => jsonParse (replaceQuotes s)
    | some v => some v
    | none => none
  match parsed with
  | some (.arr (bb :: _)) =>
      match bb with
      | .arr [a, b, c, d] => (numOr0 a, numOr0 b, numOr0 c, numOr0 d)
      | _ => (0, 0, 0, 0)
  | _ => (0, 0, 0, 0)

/-- The `connectionType` union of `BackendRecommendation`. -/
inductive ConnectionType where
  | correlation
  | contradiction
  | elaboration
  | context
deriving DecidableEq, Repr

/-- `BackendRecommendation` (api-client.ts 4-12). -/
structure Recommendation where
  id : String
  sourceDocument : String
  snippet : String
  pageNumber : ℚ
  boundingBox : ℚ × ℚ × ℚ × ℚ
  relevanceScore : ℚ
  connectionType : ConnectionType
deriving DecidableEq, Repr

/-- The `ChromaResults` shape of `extractAndSearch` (api-client.ts 93-98):
column-oriented parallel arrays, each optional.  Inner `ids` entries are
strings and inner `documents` entries are strings per the declared backend
contract; `distances` entries are arbitrary values, since the code
runtime-checks them with `typeof`. -/
structure ChromaResults where
  documents : Option (List (List String)) := none
  metadatas : Option (List (List Metadata)) := none
  ids : Option (List (List String)) := none
  distances : Option (List (List JSValue)) := none

/-- `Array.isArray(searchResults?.documents?.[0]) ? documents[0] : []`
(api-client.ts 100). -/
def innerDocuments (sr : ChromaResults) : List String :=
  match sr.documents with
  | some (d :: _) => d
  | _ => []

/-- The inner metadata batch (api-client.ts 101). -/
def innerMetadatas (sr : ChromaResults) : List Metadata :=
  match sr.metadatas with
  | some (m :: _) => m
  | _ => []

/-- The inner id batch (api-client.ts 102). -/
def innerIds (sr : ChromaResults) : List String :=
  match sr.ids with
  | some (i :: _) => i
  | _ => []

/-- The inner distance batch (api-client.ts 103). -/
def innerDistances (sr : ChromaResults) : List JSValue :=
  match sr.distances with
  | some (d :: _) => d
  | _ => []

/-- The snippet truncation of api-client.ts 148: the first 200 characters,
with an ellipsis marker appended when the snippet is longer than 200. -/
def truncateSnippet (s : String) : String :=
  s.take 200 ++ (if 200 < s.length then "..." else "")

/-- `(ids?.[i] as string) || "rec-" + i` (api-client.ts 146): a missing or
empty id falls back to an ordinal one. -/
def recId (ids : List String) (i : ℕ) : String :=
  match ids[i]? with
  | some s => if s = "" then "rec-" ++ toString i else s
  | none => "rec-" ++ toString i

/-- The source-document fallback chain of api-client.ts 147: the first
truthy of the document field, the sourceDocument field, and the literal
"Unknown Document", coerced to a string. -/
def sourceDocumentOf (meta : Metadata) : String :=
  jsToString
    (jsOr (jsOr ((metaGet meta "document").getD .null)
                ((metaGet meta "sourceDocument").getD .null))
          (.str "Unknown Document"))

/-- `Math.max` on two (non-`NaN`) numbers. -/
def jsMax (a b : ℚ) : ℚ := if a ≤ b then b else a

/-- `Math.min` on two (non-`NaN`) numbers. -/
def jsMin (a b : ℚ) : ℚ := if a ≤ b then a else b

/-- The relevance computation (api-client.ts 136-137): a numeric distance
is clamped to `[0, 1]` and inverted (`1 - Math.min(Math.max(relevance, 0), 1)`);
otherwise the placeholder `0.8 - i * 0.1` is used. -/
def relevanceScoreOf (distances : List JSValue) (i : ℕ) : ℚ :=
  match distances[i]? with
  | some (.num r) => 1 - jsMin (jsMax r 0) 1
  | _ => 4 / 5 - (i : ℚ) / 10

/-- The connection-type heuristic (api-client.ts 139-143). -/
def connectionTypeOf (score : ℚ) : ConnectionType :=
  if 4 / 5 < score then .elaboration
  else if 3 / 5 < score then .correlation
  else .context

/-- The per-entry mapping body of `documents.slice(0, 3).map((snippet, i) => …)`
(api-client.ts 131-153). -/
def mkRec (metadatas : List Metadata) (ids : List String) (distances : List JSValue)
    (i : ℕ) (snippet : String) : Recommendation :=
  let meta := metadatas.getD i []
  let pageStartZeroIndexed := parsePageStart (metaGet meta "page_range")
  let relevanceScore := relevanceScoreOf distances i
  { id := recId ids i
    sourceDocument := sourceDocumentOf meta
    snippet := truncateSnippet snippet
    pageNumber := pageStartZeroIndexed + 1
    boundingBox := parseFirstBBox (metaGet meta "chunk_bboxes")
    relevanceScore := relevanceScore
    connectionType := connectionTypeOf relevanceScore }

/-- `documents.slice(0, 3).map(…)` unfolded as an index-carrying recursion
(the argument list is the already-sliced snippet list). -/
def buildRecs (metadatas : List Metadata) (ids : List String) (distances : List JSValue) :
    ℕ → List String → List Recommendation
  | _, [] => []
  | i, s :: rest =>
      mkRec metadatas ids distances i s :: buildRecs metadatas ids distances (i + 1) rest

/-- The fallback normalization of a Chroma-style bundle into
recommendations (api-client.ts 92-156). -/
def normalizeBundle (sr : ChromaResults) : List Recommendation :=
  buildRecs (innerMetadatas sr) (innerIds sr) (innerDistances sr) 0
    ((innerDocuments sr).take 3)

/-- The two response shapes `extractAndSearch` distinguishes
(api-client.ts 87-99): a payload that already carries a `recommendations`
array, or anything else, treated as a search-result bundle
(`raw?.search_results ?? raw`, with the inner-array extraction of
`innerDocuments` and friends). -/
inductive RawPayload where
  | withRecommendations (recs : List Recommendation)
  | bundle (sr : ChromaResults)

/-- The response handling of `extractAndSearch` (api-client.ts 87-156): an
already-shaped `recommendations` array is passed through unchanged
(`raw.recommendations as BackendRecommendation[]`); otherwise the bundle
is normalized. -/
def extractAndSearchNormalize : RawPayload → List Recommendation
  | .withRecommendations recs => recs
  | .bundle sr => normalizeBundle sr

/-! ## The `getInsights` error path (api-client.ts 164-186) -/

/-- A non-2xx HTTP response as seen by `getInsights`: its status text and
the outcome of `response.json()` (`none` models a body that fails to parse,
i.e. `await response.json()` throwing). -/
structure ErrorResponse where
  statusText : String
  body : Option JSValue

/-- Property access on a value: only objects expose fields. -/
def objFields : JSValue → Metadata
  | .obj fields => fields
  | _ => []

/-- `err && (err.detail || err.message || err.error)` and the conditional
choosing between that chain and `response.statusText`
(api-client.ts 174). -/
def insightsDetail (statusText : String) (err : JSValue) : String :=
  let chain := jsOr (jsOr ((metaGet (objFields err) "detail").getD .null)
                         ((metaGet (objFields err) "message").getD .null))
                   ((metaGet (objFields err) "error").getD .null)
  if jsTruthy err ∧ jsTruthy chain then jsToString chain else statusText

/-- The inner `try` block of the non-ok branch (api-client.ts 172-175).
Both of its paths throw: a body that fails to parse rethrows the parse
error, and a parsed body reaches the explicit
`throw new Error("Insights failed: " + detail)`.  The result is the thrown
message (the parse-error message itself is irrelevant: the `catch` ignores
it). -/
def insightsTryBlockThrows (r : ErrorResponse) : String :=
  match r.body with
  | none => "json parse error"
  | some err => "Insights failed: " ++ insightsDetail r.statusText err

/-- The message `getInsights` actually surfaces for a non-2xx response
(api-client.ts 170-179): since every path of the inner `try` block throws,
control always reaches the `catch`, which discards the thrown message and
throws `"Insights failed: " + response.statusText` instead. -/
def getInsightsFailureMessage (r : ErrorResponse) : String :=
  match insightsTryBlockThrows r with
  | _ => "Insights failed: " ++ r.statusText

/-! ## Page state and handlers (page.tsx) -/

/-- A highlight annotation record as built in `handleJumpToPage` and
cleared in `handleTextSelect` (page.tsx 42, 98): the `type` field is
always the literal `"HIGHLIGHT"`. -/
structure Highlight where
  pageNumber : ℚ
  kind : String := "HIGHLIGHT"
  boundingBox : ℚ × ℚ × ℚ × ℚ
  color : String
  opacity : ℚ
deriving DecidableEq, Repr

/-- `DocumentFile` (page.tsx 22-27); `hasFile` records the presence of the
optional local `File` object. -/
structure DocumentFile where
  id : Option String
  url : Option String
  name : String
  hasFile : Bool
deriving DecidableEq, Repr

/-- `Document` (page.tsx 29-33). -/
structure LibraryDocument where
  id : String
  name : String
  uploadedAt : String
deriving DecidableEq, Repr

/-- The `currentView` union (page.tsx 45). -/
inductive View where
  | upload
  | library
  | viewer
deriving DecidableEq, Repr

/-- `BackendInsightResponse` (api-client.ts 20-22). -/
structure InsightResponse where
  insight : String
deriving DecidableEq, Repr

/-- The React state of `DocumentViewPage` (page.tsx 37-46).  The capability
handle `viewerApis` is modelled by presence only (`Option Unit`); its
operations are recorded as emitted effects instead. -/
structure AppState where
  document : Option DocumentFile
  viewerApis : Option Unit
  recommendations : List Recommendation
  isLoading : Bool
  error : Option String
  annotations : List Highlight
  insights : Option InsightResponse
  isInsightsLoading : Bool
  currentView : View
  selectedDocument : Option LibraryDocument
deriving DecidableEq, Repr

/-- Calls the page makes into the outside world: navigation of the
rendering surface and gateway requests. -/
inductive Effect where
  | goToLocation (page : ℚ)
  | extractRequest (text : String)
deriving DecidableEq, Repr

/-- `getPdfUrl` (api-client.ts 270-272); percent-encoding of the filename
is not modelled (no claim depends on the URL text). -/
def getPdfUrl (baseUrl fileName : String) : String :=
  baseUrl ++ "/get_pdf/" ++ fileName

/-- `handleDocumentSelect` (page.tsx 230-244): store the chosen library
document, load its backend URL, enter the viewer, and reset the capability
handle and all per-document transient state. -/
def handleDocumentSelect (baseUrl : String) (doc : LibraryDocument) (s : AppState) : AppState :=
  { s with
    selectedDocument := some doc
    document := some { id := some doc.id, url := some (getPdfUrl baseUrl doc.name),
                       name := doc.name, hasFile := false }
    currentView := .viewer
    viewerApis := none
    recommendations := []
    annotations := []
    insights := none
    error := none }

/-- `handleOpenSinglePdf` (page.tsx 258-266): open a local file in the
viewer and reset the capability handle and all per-document transient
state. -/
def handleOpenSinglePdf (fileName : String) (s : AppState) : AppState :=
  { s with
    document := some { id := none, url := none, name := fileName, hasFile := true }
    currentView := .viewer
    viewerApis := none
    recommendations := []
    annotations := []
    insights := none
    error := none }

/-- `handleBackToLibrary` (page.tsx 246-250). -/
def handleBackToLibrary (s : AppState) : AppState :=
  { s with currentView := .library, document := none, selectedDocument := none }

/-- `handleBackToUpload` (page.tsx 252-256). -/
def handleBackToUpload (s : AppState) : AppState :=
  { s with currentView := .upload, document := none, selectedDocument := none }

/-- The inline click handler of the top-bar Library navigation button
(page.tsx 297): it only switches the view, clearing nothing. -/
def navLibraryClick (s : AppState) : AppState :=
  { s with currentView := .library }

/-- The highlight `handleJumpToPage` builds (page.tsx 98). -/
def mkHighlight (rec : Recommendation) : Highlight :=
  { pageNumber := rec.pageNumber, boundingBox := rec.boundingBox,
    color := "#FBBF24", opacity := 2 / 5 }

/-- `handleJumpToPage` (page.tsx 95-101): with a ready capability handle,
navigate to the page of the recommendation and replace the annotation list with
its single highlight; without one, do nothing. -/
def handleJumpToPage (rec : Recommendation) (s : AppState) : AppState × List Effect :=
  match s.viewerApis with
  | some _ => ({ s with annotations := [mkHighlight rec] }, [.goToLocation rec.pageNumber])
  | none => (s, [])

/-- The resolution of the awaited external steps of one pipeline run:
either both the screenshot capture and the gateway call succeed and the
normalized recommendations come back, or the element lookup / screenshot
capture throws before any request is issued, or the gateway call itself
throws (after its request went out). -/
inductive PipelineOutcome where
  | success (recs : List Recommendation)
  | captureFailure
  | gatewayFailure
deriving DecidableEq, Repr

/-- `processSelectionWithScreenshot` (page.tsx 60-81) as a function of the
state at invocation time, the selected text, and the resolution of the
external steps.  Guards: a missing capability handle or empty/whitespace
text return before any state update or request.  Otherwise loading is set,
error and insights are cleared, and then either the result is committed
(with loading cleared by `finally`) or the catch block records the fixed
error string. -/
def processSelection (s : AppState) (text : String) (out : PipelineOutcome) :
    AppState × List Effect :=
  if s.viewerApis = none then (s, [])
  else if text = "" ∨ jsTrim text = "" then (s, [])
  else
    let s1 := { s with isLoading := true, error := none, insights := none }
    match out with
    | .success recs =>
        ({ s1 with recommendations := recs, isLoading := false },
         [.extractRequest (jsTrim text)])
    | .captureFailure =>
        ({ s1 with error := some "Failed to process selection. Try again.",
                   isLoading := false }, [])
    | .gatewayFailure =>
        ({ s1 with error := some "Failed to process selection. Try again.",
                   isLoading := false }, [.extractRequest (jsTrim text)])

/-! ## Debounce semantics (page.tsx 83-93)

`handleTextSelect` clears any pending timer and schedules
`processSelectionWithScreenshot(selectedText)` 600 ms later.  Timers are
given their browser semantics: a scheduled timer fires unless it is
cleared first, and each new selection event clears the pending one.  A
raw-event trace is a list of `(timestamp, text)` pairs in arrival order;
`debounceFires` returns the texts whose timers survive uncancelled, in
firing order: the timer of an event fires exactly when no further event
arrives strictly before its 600 ms deadline. -/

/-- The texts whose debounce timers fire, for a trace of raw selection
events. -/
def debounceFires : List (ℚ × String) → List String
  | [] => []
  | [e] => [e.2]
  | e :: e2 :: rest =>
      if e2.1 < e.1 + 600 then debounceFires (e2 :: rest)
      else e.2 :: debounceFires (e2 :: rest)

/-- The gateway requests issued by a trace of raw selection events: each
fired timer runs `processSelectionWithScreenshot` on its text against the
state at firing time. -/
def debounceRequests (s : AppState) (out : PipelineOutcome)
    (events : List (ℚ × String)) : List Effect :=
  (debounceFires events).flatMap (fun t => (processSelection s t out).2)

/-! ## Completion-order commits (page.tsx 60-81)

Once several pipeline runs are in flight, each one executes
`setRecommendations(result.recommendations || [])` when its awaits
resolve, with no further check.  A completed run is a pair of the
generation in which it was issued (its ordinal in issue order) and its
result list; applying completions in completion order folds the
unconditional commit over the trace. -/

/-- One completed pipeline run. -/
structure RunCompletion where
  generation : ℕ
  recs : List Recommendation
deriving DecidableEq, Repr

/-- The commit each completed run performs (page.tsx 74, 79):
`setRecommendations` then `setIsLoading(false)`, unconditionally. -/
def commitRun (s : AppState) (recs : List Recommendation) : AppState :=
  { s with recommendations := recs, isLoading := false }

/-- The behavior of the code: completions are applied in completion order, each
committing unconditionally. -/
def runCompletionsCode (s : AppState) (cs : List RunCompletion) : AppState :=
  cs.foldl (fun st c => commitRun st c.recs) s

/-- Modelled from the words of the spec, for comparison with
`runCompletionsCode`: a completion is committed iff its generation equals
the latest issued generation at completion time; otherwise it is
discarded. -/
def runCompletionsSpecGen (latest : ℕ) (s : AppState) (cs : List RunCompletion) : AppState :=
  cs.foldl (fun st c => if c.generation = latest then commitRun st c.recs else st) s

/-! ## Concrete values used by witnesses and counterexamples -/

/-- A viewer-ready page state with no transient data. -/
def sampleState : AppState :=
  { document := none, viewerApis := some (), recommendations := [],
    isLoading := false, error := none, annotations := [], insights := none,
    isInsightsLoading := false, currentView := .viewer, selectedDocument := none }

/-- A recommendation named "A". -/
def recA : Recommendation :=
  { id := "A", sourceDocument := "doc1.pdf", snippet := "alpha", pageNumber := 2,
    boundingBox := (0, 0, 0, 0), relevanceScore := 1 / 2, connectionType := .context }

/-- A recommendation named "B". -/
def recB : Recommendation :=
  { id := "B", sourceDocument := "doc2.pdf", snippet := "beta", pageNumber := 5,
    boundingBox := (1, 1, 2, 2), relevanceScore := 1 / 2, connectionType := .context }

/-- A recommendation whose relevance score lies outside the unit interval,
as a pass-through payload may carry. -/
def badRec : Recommendation :=
  { id := "x", sourceDocument := "d", snippet := "s", pageNumber := 1,
    boundingBox := (0, 0, 0, 0), relevanceScore := 2, connectionType := .context }

/-- The single-entry bundle of the page-3 scenario: one snippet, metadata
page range encoded as the string "[2]", distance 0.1. -/
def scenarioBundle (snippet : String) : ChromaResults :=
  { documents := some [[snippet]]
    metadatas := some [[[("page_range", JSValue.str "[2]")]]]
    distances := some [[.num (1 / 10)]] }

/-- Metadata whose page range is unparseable while its bounding boxes are
well-formed. -/
def mixedMeta : Metadata :=
  [("page_range", JSValue.str "oops"), ("chunk_bboxes", JSValue.str "[[1,2,3,4]]")]

/-- A non-2xx insights response carrying a structured detail field. -/
def detailResponse : ErrorResponse :=
  { statusText := "Internal Server Error"
    body := some (.obj [("detail", .str "Gemini API quota exceeded")]) }

/-! ## Projection lemmas for `mkRec` -/

theorem mkRec_pageNumber (m : List Metadata) (i : List String) (d : List JSValue)
    (j : ℕ) (s : String) :
    (mkRec m i d j s).pageNumber
      = parsePageStart (metaGet (m.getD j []) "page_range") + 1 := rfl

theorem mkRec_boundingBox (m : List Metadata) (i : List String) (d : List JSValue)
    (j : ℕ) (s : String) :
    (mkRec m i d j s).boundingBox
      = parseFirstBBox (metaGet (m.getD j []) "chunk_bboxes") := rfl

theorem mkRec_relevanceScore (m : List Metadata) (i : List String) (d : List JSValue)
    (j : ℕ) (s : String) :
    (mkRec m i d j s).relevanceScore = relevanceScoreOf d j := rfl

theorem mkRec_connectionType (m : List Metadata) (i : List String) (d : List JSValue)
    (j : ℕ) (s : String) :
    (mkRec m i d j s).connectionType = connectionTypeOf (relevanceScoreOf d j) := rfl

theorem mkRec_snippet (m : List Metadata) (i : List String) (d : List JSValue)
    (j : ℕ) (s : String) :
    (mkRec m i d j s).snippet = truncateSnippet s := rfl

/-! ## Structure lemmas for `buildRecs` -/

theorem buildRecs_length (m : List Metadata) (i : List String) (d : List JSValue)
    (j : ℕ) (l : List String) :
    (buildRecs m i d j l).length = l.length := by
  induction l generalizing j with
  | nil => rfl
  | cons s rest ih => simp [buildRecs, ih]

theorem buildRecs_mem (m : List Metadata) (i : List String) (d : List JSValue)
    (j : ℕ) (l : List String) (r : Recommendation)
    (hr : r ∈ buildRecs m i d j l) :
    ∃ k s, j ≤ k ∧ k < j + l.length ∧ r = mkRec m i d k s := by
  induction l generalizing j with
  | nil => simp [buildRecs] at hr
  | cons s rest ih =>
      rcases List.mem_cons.mp hr with h | h
      · exact ⟨j, s, le_refl j, by simp, h⟩
      · obtain ⟨k, s', hk1, hk2, hk3⟩ := ih (j + 1) h
        exact ⟨k, s', by omega, by simp at hk2 ⊢; omega, hk3⟩

/-- The relevance score of any of the first three entries lies in the unit
interval: a numeric distance is clamped before inversion, and the
placeholder scores are 0.8, 0.7, 0.6. -/
theorem relevanceScoreOf_bounds (d : List JSValue) (k : ℕ) (hk : k < 3) :
    0 ≤ relevanceScoreOf d k ∧ relevanceScoreOf d k ≤ 1 := by
  have hcast : (k : ℚ) ≤ 2 := by exact_mod_cast Nat.lt_succ_iff.mp hk
  have hcast0 : (0 : ℚ) ≤ (k : ℚ) := by positivity
  unfold relevanceScoreOf
  cases hd : d[k]? with
  | none => constructor <;> [linarith; linarith]
  | some v =>
      cases v with
      | num r =>
          simp only [jsMin, jsMax]
          split_ifs <;> constructor <;> linarith
      | str s => constructor <;> [linarith; linarith]
      | arr xs => constructor <;> [linarith; linarith]
      | obj f => constructor <;> [linarith; linarith]
      | null => constructor <;> [linarith; linarith]

/-! ## Claim theorems -/

/-- A viewer state with an open local document. -/
def viewerDocState : AppState :=
  { sampleState with
    currentView := .viewer
    document := some { id := none, url := none, name := "doc.pdf", hasFile := true } }

/-- C7 counterexample: the top-bar Library navigation button leaves the
Viewer state back to Library without clearing the active document
reference, so not every transition leaving the Viewer clears it. -/
theorem nav_library_keeps_document :
    viewerDocState.currentView = .viewer ∧
    (navLibraryClick viewerDocState).currentView = .library ∧
    (navLibraryClick viewerDocState).document ≠ none ∧
    (navLibraryClick viewerDocState).document = viewerDocState.document := by
  refine ⟨rfl, rfl, ?_, rfl⟩
  decide

/-- C7 as amended: every transition entering the Viewer state (choosing a
library document or opening a local file) resets all per-document
transient state (recommendations, annotations, insights, error, and the
viewer capability handle), and the dedicated back-to-Library and
back-to-Upload transitions clear the active document reference — the
top-bar Library navigation button, however, leaves the Viewer without
clearing it. -/
theorem viewer_transitions_reset_state (baseUrl fileName : String)
    (doc : LibraryDocument) (s : AppState) :
    (handleDocumentSelect baseUrl doc s).recommendations = [] ∧
    (handleDocumentSelect baseUrl doc s).annotations = [] ∧
    (handleDocumentSelect baseUrl doc s).insights = none ∧
    (handleDocumentSelect baseUrl doc s).error = none ∧
    (handleDocumentSelect baseUrl doc s).viewerApis = none ∧
    (handleDocumentSelect baseUrl doc s).currentView = .viewer ∧
    (handleOpenSinglePdf fileName s).recommendations = [] ∧
    (handleOpenSinglePdf fileName s).annotations = [] ∧
    (handleOpenSinglePdf fileName s).insights = none ∧
    (handleOpenSinglePdf fileName s).error = none ∧
    (handleOpenSinglePdf fileName s).viewerApis = none ∧
    (handleOpenSinglePdf fileName s).currentView = .viewer ∧
    (handleBackToLibrary s).document = none ∧
    (handleBackToLibrary s).selectedDocument = none ∧
    (handleBackToLibrary s).currentView = .library ∧
    (handleBackToUpload s).document = none ∧
    (handleBackToUpload s).selectedDocument = none ∧
    (handleBackToUpload s).currentView = .upload ∧
    (navLibraryClick s).document = s.document ∧
    (navLibraryClick s).currentView = .library := by
  simp [handleDocumentSelect, handleOpenSinglePdf, handleBackToLibrary, handleBackToUpload,
    navLibraryClick]

/-- C8: With a ready capability handle, selecting a recommendation issues
`goToLocation` for its page and replaces the annotation list with exactly
that one highlight, so selecting A then B leaves only B highlighted; with
no handle, the selection is dropped silently with no state change and no
effect. -/
theorem jump_to_page_single_highlight (s : AppState) (A B : Recommendation) :
    (handleJumpToPage A { s with viewerApis := some () }).2
        = [.goToLocation A.pageNumber] ∧
    (handleJumpToPage A { s with viewerApis := some () }).1.annotations
        = [mkHighlight A] ∧
    (handleJumpToPage B (handleJumpToPage A { s with viewerApis := some () }).1).1.annotations
        = [mkHighlight B] ∧
    handleJumpToPage A { s with viewerApis := none }
        = ({ s with viewerApis := none }, []) := by
  simp [handleJumpToPage]

/-- C9: A selection whose text is empty or whitespace-only is a no-op: the
state (loading, error, insights, recommendations and all other fields) is
unchanged and no request is issued. -/
theorem empty_selection_noop (s : AppState) (text : String) (out : PipelineOutcome)
    (h : jsTrim text = "") :
    processSelection s text out = (s, []) := by
  by_cases hv : s.viewerApis = none
  · simp [processSelection, hv]
  · simp [processSelection, hv, h]

/-- Witness for C9 at a whitespace-only selection against the ready sample
state. -/
theorem empty_selection_noop_witness :
    jsTrim "  " = "" ∧ processSelection sampleState "  " .captureFailure = (sampleState, []) :=
  ⟨by decide, empty_selection_noop sampleState "  " .captureFailure (by decide)⟩

/-- C4: A raw search bundle whose first documents entry is a snippet longer
than 200 characters, with metadata page range "[2]" and distance 0.1,
normalizes to a single Recommendation with page number 3, relevance score
0.9, connection type elaboration, and snippet truncated to its first 200
characters plus an ellipsis marker. -/
theorem bundle_scenario_page3 (snippet : String) (h : 200 < snippet.length) :
    ∃ r, extractAndSearchNormalize (.bundle (scenarioBundle snippet)) = [r] ∧
      r.pageNumber = 3 ∧ r.relevanceScore = 9 / 10 ∧
      r.connectionType = .elaboration ∧
      r.snippet = snippet.take 200 ++ "..." := by
  have hs : relevanceScoreOf [JSValue.num (1 / 10)] 0 = 9 / 10 := by
    norm_num [relevanceScoreOf, jsMin, jsMax]
  refine ⟨mkRec [[("page_range", JSValue.str "[2]")]] [] [.num (1 / 10)] 0 snippet,
    rfl, ?_, ?_, ?_, ?_⟩
  · rw [mkRec_pageNumber]
    have hp : parsePageStart (metaGet (([[("page_range", JSValue.str "[2]")]] :
        List Metadata).getD 0 []) "page_range") = 2 := rfl
    rw [hp]; norm_num
  · rw [mkRec_relevanceScore, hs]
  · rw [mkRec_connectionType, hs]
    norm_num [connectionTypeOf]
  · rw [mkRec_snippet]
    simp [truncateSnippet, h]

set_option maxRecDepth 8000 in
/-- Witness for C4 at a concrete 201-character snippet. -/
theorem bundle_scenario_page3_witness :
    200 < (String.mk (List.replicate 201 'a')).length ∧
    ∃ r, extractAndSearchNormalize
        (.bundle (scenarioBundle (String.mk (List.replicate 201 'a')))) = [r] ∧
      r.pageNumber = 3 ∧ r.relevanceScore = 9 / 10 ∧
      r.connectionType = .elaboration ∧
      r.snippet = (String.mk (List.replicate 201 'a')).take 200 ++ "..." :=
  ⟨by decide, bundle_scenario_page3 (String.mk (List.replicate 201 'a')) (by decide)⟩

/-- C6: Malformed page-range or bounding-box metadata (an unparseable
string, an empty array, or a first bounding box of the wrong arity) never
throws: the page defaults to 0 (displayed as 1) and the bounding box to
(0, 0, 0, 0), substituted field-by-field — a record with a malformed page
range still gets its own bounding box and snippet, and the record is still
produced. -/
theorem malformed_metadata_defaults (s : String) (bb : JSValue) (rest : List JSValue)
    (meta : Metadata)
    (hs : jsonParse (replaceQuotes s) = none)
    (hbb : ∀ l, bb = JSValue.arr l → l.length ≠ 4)
    (hm : metaGet meta "page_range" = some (.str s)) :
    parsePageStart (some (.str s)) = 0 ∧
    parseFirstBBox (some (.str s)) = (0, 0, 0, 0) ∧
    parsePageStart (some (.arr [])) = 0 ∧
    parseFirstBBox (some (.arr (bb :: rest))) = (0, 0, 0, 0) ∧
    ∀ ids d snip, (mkRec [meta] ids d 0 snip).pageNumber = 1 ∧
      (mkRec [meta] ids d 0 snip).boundingBox
        = parseFirstBBox (metaGet meta "chunk_bboxes") ∧
      (mkRec [meta] ids d 0 snip).snippet = truncateSnippet snip := by
  have hpage : parsePageStart (some (.str s)) = 0 := by
    simp [parsePageStart, hs]
  refine ⟨hpage, ?_, rfl, ?_, ?_⟩
  · simp [parseFirstBBox, hs]
  · rcases bb with q | t | l | f | _
    · rfl
    · rfl
    · rcases l with _ | ⟨a, _ | ⟨b, _ | ⟨c, _ | ⟨d, _ | ⟨e, l2⟩⟩⟩⟩⟩
      · rfl
      · rfl
      · rfl
      · rfl
      · exact absurd rfl (hbb [a, b, c, d] rfl)
      · rfl
    · rfl
    · rfl
  · intro ids d snip
    refine ⟨?_, ?_, rfl⟩
    · rw [mkRec_pageNumber]
      have hd : ([meta] : List Metadata).getD 0 [] = meta := rfl
      rw [hd, hm, hpage]; norm_num
    · rw [mkRec_boundingBox]
      rfl

/-- Witness for C6 at the unparseable page range "oops", the non-array
bounding box 5, and metadata whose bounding boxes are well-formed (so the
bounding-box field of the produced record is parsed even though the page
field defaulted). -/
theorem malformed_metadata_defaults_witness :
    jsonParse (replaceQuotes "oops") = none ∧
    (∀ l, JSValue.num 5 = JSValue.arr l → l.length ≠ 4) ∧
    metaGet mixedMeta "page_range" = some (.str "oops") ∧
    (parsePageStart (some (.str "oops")) = 0 ∧
     parseFirstBBox (some (.str "oops")) = (0, 0, 0, 0) ∧
     parsePageStart (some (.arr [])) = 0 ∧
     parseFirstBBox (some (.arr (JSValue.num 5 :: []))) = (0, 0, 0, 0) ∧
     ∀ ids d snip, (mkRec [mixedMeta] ids d 0 snip).pageNumber = 1 ∧
       (mkRec [mixedMeta] ids d 0 snip).boundingBox
         = parseFirstBBox (metaGet mixedMeta "chunk_bboxes") ∧
       (mkRec [mixedMeta] ids d 0 snip).snippet = truncateSnippet snip) :=
  ⟨rfl, fun _ h => JSValue.noConfusion h, rfl,
    malformed_metadata_defaults "oops" (JSValue.num 5) [] mixedMeta rfl
      (fun _ h => JSValue.noConfusion h) rfl⟩

/-- C2 counterexample: the pass-through branch of the normalizer returns a
payload that already carries a recommendations array unchanged, so a
four-entry list with a relevance score of 2 comes back with length 4 > 3
and a score outside the unit interval. -/
theorem normalizer_passthrough_unbounded :
    (extractAndSearchNormalize
        (.withRecommendations [badRec, badRec, badRec, badRec])).length = 4 ∧
    ¬ (extractAndSearchNormalize
        (.withRecommendations [badRec, badRec, badRec, badRec])).length ≤ 3 ∧
    badRec ∈ extractAndSearchNormalize
        (.withRecommendations [badRec, badRec, badRec, badRec]) ∧
    ¬ badRec.relevanceScore ≤ 1 := by
  refine ⟨rfl, by norm_num [extractAndSearchNormalize],
    by simp [extractAndSearchNormalize], ?_⟩
  norm_num [badRec]

/-- C2 as amended: on the bundle-shaped path (no recommendations array in
the payload) the normalizer output has length at most 3 and every
relevance score lies in the unit interval; the pass-through path returns
the incoming list unchanged and enforces no bound. -/
theorem bundle_normalization_bounded (sr : ChromaResults) (r : Recommendation)
    (hr : r ∈ extractAndSearchNormalize (.bundle sr)) :
    (extractAndSearchNormalize (.bundle sr)).length ≤ 3 ∧
    0 ≤ r.relevanceScore ∧ r.relevanceScore ≤ 1 := by
  have hlen : (extractAndSearchNormalize (.bundle sr)).length ≤ 3 := by
    show (normalizeBundle sr).length ≤ 3
    rw [normalizeBundle, buildRecs_length]
    exact le_trans (List.length_take_le 3 _) (le_refl 3)
  refine ⟨hlen, ?_, ?_⟩ <;>
  · obtain ⟨k, s, hk0, hk, heq⟩ := buildRecs_mem _ _ _ 0 _ r hr
    have hk3 : k < 3 := by
      have := List.length_take_le 3 (innerDocuments sr)
      omega
    obtain ⟨h1, h2⟩ := relevanceScoreOf_bounds (innerDistances sr) k hk3
    rw [heq, mkRec_relevanceScore]
    first
      | exact h1
      | exact h2

/-- Witness for the amended C2 at a one-snippet bundle. -/
theorem bundle_normalization_bounded_witness :
    (mkRec [] [] [] 0 "hello") ∈ extractAndSearchNormalize
      (.bundle { documents := some [["hello"]] }) ∧
    ((extractAndSearchNormalize (.bundle { documents := some [["hello"]] })).length ≤ 3 ∧
     0 ≤ (mkRec [] [] [] 0 "hello").relevanceScore ∧
     (mkRec [] [] [] 0 "hello").relevanceScore ≤ 1) :=
  ⟨List.mem_singleton.mpr rfl,
   bundle_normalization_bounded { documents := some [["hello"]] } (mkRec [] [] [] 0 "hello")
     (List.mem_singleton.mpr rfl)⟩

/-- In a burst (each event strictly within 600 ms of its predecessor) every
timer except the last is cleared by the next event, so exactly the text of
the last event fires. -/
theorem debounceFires_burst (events : List (ℚ × String)) (hne : events ≠ [])
    (hburst : events.Chain' (fun a b => b.1 < a.1 + 600)) :
    debounceFires events = [(events.getLast hne).2] := by
  induction events with
  | nil => exact absurd rfl hne
  | cons e t ih =>
      cases t with
      | nil => simp [debounceFires]
      | cons e2 r =>
          have hc := List.chain'_cons.mp hburst
          have hr : debounceFires (e2 :: r) = [((e2 :: r).getLast (by simp)).2] :=
            ih (by simp) hc.2
          rw [List.getLast_cons (by simp : e2 :: r ≠ [])]
          calc debounceFires (e :: e2 :: r)
              = debounceFires (e2 :: r) := by
                simp [debounceFires, hc.1]
            _ = [((e2 :: r).getLast (by simp)).2] := hr

/-- C3: For a burst of raw selection events each arriving within the 600 ms
quiet period of the previous one, exactly one timer survives uncancelled
(that of the last event), and — with a ready handle and non-blank text — exactly
one downstream extract-and-search request is issued, carrying the trimmed
text of the last event of the burst. -/
theorem burst_single_request (events : List (ℚ × String)) (s : AppState)
    (recs : List Recommendation) (hne : events ≠ [])
    (hburst : events.Chain' (fun a b => b.1 < a.1 + 600))
    (hready : s.viewerApis = some ())
    (htext : jsTrim (events.getLast hne).2 ≠ "") :
    debounceFires events = [(events.getLast hne).2] ∧
    debounceRequests s (.success recs) events
      = [.extractRequest (jsTrim (events.getLast hne).2)] := by
  have hfires := debounceFires_burst events hne hburst
  refine ⟨hfires, ?_⟩
  rw [debounceRequests, hfires]
  have hnempty : (events.getLast hne).2 ≠ "" := by
    intro h
    exact htext (by rw [h]; rfl)
  simp [processSelection, hready, hnempty, htext]

/-- Witness for C3 at a two-event burst 500 ms apart. -/
theorem burst_single_request_witness :
    ([((0 : ℚ), "alpha"), ((500 : ℚ), " beta ")] ≠ ([] : List (ℚ × String))) ∧
    List.Chain' (fun a b => b.1 < a.1 + 600) [((0 : ℚ), "alpha"), ((500 : ℚ), " beta ")] ∧
    sampleState.viewerApis = some () ∧
    jsTrim ([((0 : ℚ), "alpha"), ((500 : ℚ), " beta ")].getLast (by simp)).2 ≠ "" ∧
    (debounceFires [((0 : ℚ), "alpha"), ((500 : ℚ), " beta ")] = [" beta "] ∧
     debounceRequests sampleState (.success []) [((0 : ℚ), "alpha"), ((500 : ℚ), " beta ")]
       = [.extractRequest "beta"]) :=
  ⟨by simp, List.Chain'.cons (by norm_num) (List.chain'_singleton _),
   rfl, by simp [jsTrim],
   burst_single_request [((0 : ℚ), "alpha"), ((500 : ℚ), " beta ")] sampleState [] (by simp)
     (List.Chain'.cons (by norm_num) (List.chain'_singleton _)) rfl (by simp [jsTrim])⟩

/-- C5: The inner try block of the non-ok branch of `getInsights` does
compute the structured-detail message, but its own throw is caught by the
enclosing catch, which discards it and surfaces the status-text message
instead — so the structured detail field never reaches the user (contrary
to the adjacent code comment announcing it), and for every non-2xx
response the surfaced message is derived from the status text alone. -/
theorem insights_error_ignores_detail :
    insightsTryBlockThrows detailResponse
      = "Insights failed: Gemini API quota exceeded" ∧
    getInsightsFailureMessage detailResponse
      = "Insights failed: Internal Server Error" ∧
    getInsightsFailureMessage detailResponse
      ≠ "Insights failed: Gemini API quota exceeded" ∧
    ∀ r : ErrorResponse, getInsightsFailureMessage r
      = "Insights failed: " ++ r.statusText :=
  ⟨rfl, rfl, by decide, fun r => rfl⟩

/-- C1 counterexample: generation 1 completes first, then the slower
generation 0 completes; the code commits unconditionally in completion
order, so the stale generation-0 result overwrites the generation-1 result,
while the generation check described by the spec would have kept the
generation-1 result. -/
theorem stale_completion_overwrites :
    (runCompletionsCode sampleState [⟨1, [recA]⟩, ⟨0, [recB]⟩]).recommendations = [recB] ∧
    (runCompletionsSpecGen 1 sampleState [⟨1, [recA]⟩, ⟨0, [recB]⟩]).recommendations = [recA] ∧
    recA ≠ recB := by
  refine ⟨rfl, rfl, ?_⟩
  simp [recA, recB]

/-- C1 as amended: results are committed in completion order — every
completed run commits unconditionally, so the recommendations state after
a trace of completions is the result of the run that completed last
(regardless of its generation), or the initial state when nothing
completed. -/
theorem completion_order_commit (s : AppState) (cs : List RunCompletion) :
    (runCompletionsCode s cs).recommendations =
      (match cs.getLast? with
       | some c => c.recs
       | none => s.recommendations) := by
  induction cs generalizing s with
  | nil => rfl
  | cons c t ih =>
      cases t with
      | nil => rfl
      | cons c2 t2 =>
          rw [List.getLast?_cons_cons]
          exact ih (commitRun s c.recs)

/-- C10 counterexample: a failed run does not leave everything but error
and loading untouched — the insights value is cleared at run start, so a
failure run changes it from its prior non-null value to null. -/
theorem failed_run_clears_insights :
    (processSelection { sampleState with insights := some ⟨"prior"⟩ }
        "hello" .gatewayFailure).1.insights = none ∧
    ({ sampleState with insights := some ⟨"prior"⟩ } : AppState).insights
        = some ⟨"prior"⟩ ∧
    (processSelection { sampleState with insights := some ⟨"prior"⟩ }
        "hello" .gatewayFailure).1.insights
      ≠ ({ sampleState with insights := some ⟨"prior"⟩ } : AppState).insights := by
  refine ⟨rfl, rfl, ?_⟩
  decide

/-- C10 as amended: when the pipeline fails (screenshot capture or gateway
call throwing), the previously committed recommendations are left
unchanged; the error string is set, the loading flag cleared, and the
insights value reset to none (it is cleared when the run starts, before
the failure). -/
theorem failed_run_preserves_recommendations (s : AppState) (text : String)
    (out : PipelineOutcome) (hready : s.viewerApis = some ())
    (htext : jsTrim text ≠ "")
    (hfail : out = .captureFailure ∨ out = .gatewayFailure) :
    (processSelection s text out).1.recommendations = s.recommendations ∧
    (processSelection s text out).1.error = some "Failed to process selection. Try again." ∧
    (processSelection s text out).1.isLoading = false ∧
    (processSelection s text out).1.insights = none := by
  have hnempty : text ≠ "" := by
    intro h
    exact htext (by rw [h]; rfl)
  rcases hfail with h | h <;> subst h <;>
    simp [processSelection, hready, hnempty, htext]

/-- Witness for the amended C10 at a capture failure from the ready sample
state. -/
theorem failed_run_preserves_recommendations_witness :
    sampleState.viewerApis = some () ∧ jsTrim "hello" ≠ "" ∧
    (PipelineOutcome.captureFailure = PipelineOutcome.captureFailure ∨
     PipelineOutcome.captureFailure = PipelineOutcome.gatewayFailure) ∧
    ((processSelection sampleState "hello" .captureFailure).1.recommendations
        = sampleState.recommendations ∧
     (processSelection sampleState "hello" .captureFailure).1.error
        = some "Failed to process selection. Try again." ∧
     (processSelection sampleState "hello" .captureFailure).1.isLoading = false ∧
     (processSelection sampleState "hello" .captureFailure).1.insights = none) :=
  ⟨rfl, by decide, Or.inl rfl,
   failed_run_preserves_recommendations sampleState "hello" .captureFailure rfl
     (by decide) (Or.inl rfl)⟩

end AIHPipeline
